import Mathlib

/-!
# cwolsrv: magic-packet server, host matching, command dispatch and configuration checks

A shallow embedding of `server.go` and `config.go` of `Eun/cwolsrv`.

Conventions of the embedding

* A Go `byte` is a `Fin 256`; a Go `[]byte` / `net.HardwareAddr` is a `List Byte`, and a nil
  slice that the code distinguishes from a non-nil one is `Option.none`.
* A Go `string` is a `List Char`, one element per byte of the string.  Every function below
  only ever compares string bytes with ASCII characters.
* A Go `error` result is an `Except`/`Option`; a goroutine that blocks for ever is `none`.
* `Serve` is a loop over what its `select` observes (a datagram, a read error, a stop request)
  and returns the trace of its observable effects together with the receive buffer.
* The functions of the Go standard library that the code calls (`net.ParseMAC`,
  `net.HardwareAddr.String`, `net.SplitHostPort`, `strconv.Atoi`, `binary.Read`, `bytes.Equal`,
  `exec.CommandContext`, `filepath.Base`) are embedded from the standard library sources; the
  textual IP address parser and `exec.LookPath` are parameters.
-/

namespace Cwolsrv

/-! ## Data model -/

/-- One Go `byte`. -/
abbrev Byte := Fin 256

/-- Go `string`: the sequence of its bytes, written as characters. -/
abbrev GoString := List Char

/-- Go `net.HardwareAddr` (a byte slice). -/
abbrev HardwareAddr := List Byte

/-- Go `net.UDPAddr`; `IP = none` is the nil IP. -/
structure UDPAddr where
  IP : Option (List Byte)
  Port : Int
  Zone : GoString
deriving DecidableEq, Repr

/-- The `Host` struct of `config.go`; `parsedMac = none` is the nil address. -/
structure Host where
  Name : GoString
  Mac : GoString
  Run : List GoString
  parsedMac : Option HardwareAddr
deriving DecidableEq, Repr

/-- The `Config` struct of `config.go`. -/
structure Config where
  Binds : List GoString
  Hosts : List Host
  parsedBinds : List UDPAddr
deriving DecidableEq, Repr

/-- The `Server` struct of `server.go` (the socket and the stop channel live in the run-time
state of `Serve` and `Close`). -/
structure Server where
  Bind : UDPAddr
  Config : Config
  workingDirectory : GoString
deriving DecidableEq, Repr

/-- The `MagicPacket` struct of `server.go`: `Header [6]byte`, `Payload [16]MACAddress`. -/
structure MagicPacket where
  Header : List Byte
  Payload : List (List Byte)
deriving DecidableEq, Repr

/-- The fields of `exec.Cmd` that `runCommand` sets; `Env = none` is the nil slice. -/
structure Cmd where
  Path : GoString
  Args : List GoString
  Dir : GoString
  Env : Option (List GoString)
deriving DecidableEq, Repr

/-- Size of the receive buffer of `Serve`: `var buf [6 + 16*6]byte`. -/
def bufSize : Nat := 6 + 16 * 6

/-! ## `net.HardwareAddr.String` -/

/-- The constant `hexDigit` of package `net`. -/
def hexDigit : GoString := "0123456789abcdef".toList

/-- Go `hexDigit[i]`, for an index below 16. -/
def hexDigitAt (i : Nat) : Char := hexDigit.getD i '0'

/-- The loop of `HardwareAddr.String`: a colon before every byte but the first, then the two
hex digits `hexDigit[b>>4]`, `hexDigit[b&0xF]`. -/
def HardwareAddr.String.loop : Nat → List Byte → GoString
  | _, [] => []
  | i, b :: bs =>
    (if i > 0 then [':'] else []) ++
      [hexDigitAt (b.val / 16), hexDigitAt (b.val % 16)] ++
      HardwareAddr.String.loop (i + 1) bs

/-- Go `func (a HardwareAddr) String() string`. -/
def HardwareAddr.String (a : HardwareAddr) : GoString :=
  if a.length = 0 then [] else HardwareAddr.String.loop 0 a

/-! ## Command dispatch (`runCommand`, `runCommands`) -/

/-- What the server does that can be observed from outside. -/
inductive Effect where
  /-- The reader goroutine is spawned (`go func() ... ReadFromUDP(buf[:])`): the next read is
  issued. -/
  | readIssued
  /-- Logged when `ReadFromUDP` failed: "unable to read incoming packet". -/
  | logReadError
  /-- Logged when `binary.Read` failed: "unable to read incoming packet". -/
  | logDecodeError
  /-- The sanity check failed: "malformed packet". -/
  | logMalformed
  /-- Entry into `cmd.Run()`, which starts the child process and waits for it. -/
  | cmdStarted (cmd : Cmd)
  /-- Return of `cmd.Run()`: the child process has exited or was killed on timeout. -/
  | cmdReturned (cmd : Cmd)
deriving DecidableEq, Repr

/-- Go `append(s, xs...)` on a possibly nil slice: the result is never nil here. -/
def goAppend {α : Type} (s : Option (List α)) (xs : List α) : Option (List α) :=
  some (s.getD [] ++ xs)

/-- Go `bytealg.IndexByteString`: index of the first `c` in `s`, or `-1`. -/
def IndexByteString : GoString → Char → Int
  | [], _ => -1
  | x :: xs, c =>
    if x = c then 0
    else
      let r := IndexByteString xs c
      if r < 0 then -1 else r + 1

/-- Go `bytealg.LastIndexByteString`: index of the last `c` in `s`, or `-1`. -/
def LastIndexByteString : GoString → Char → Int
  | [], _ => -1
  | x :: xs, c =>
    let r := LastIndexByteString xs c
    if r ≥ 0 then r + 1 else if x = c then 0 else -1

/-- Go `filepath.Base` on a POSIX system (separator `/`, no volume names): `.` for the empty
path; otherwise trailing slashes are dropped, then everything up to the last slash, and `/` is
returned when nothing is left. -/
def filepathBase (path : GoString) : GoString :=
  if path = [] then ['.']
  else
    let p := (path.reverse.dropWhile (fun c => c == '/')).reverse
    let i := LastIndexByteString p '/'
    let p := if i ≥ 0 then p.drop (i + 1).toNat else p
    if p = [] then ['/'] else p

/-- Go `exec.CommandContext(ctx, name)` (no further arguments): `Path` and `Args[0]` are
`name`, `Dir` is empty and `Env` nil; when `filepath.Base(name) == name` the name is looked up
with `exec.LookPath` and a non-empty result replaces `Path`. The parameter `lookPath` is
`exec.LookPath` of the running system, giving the empty string when it finds nothing. -/
def CommandContext (lookPath : GoString → GoString) (name : GoString) : Cmd :=
  let cmd : Cmd := { Path := name, Args := [name], Dir := [], Env := none }
  if filepathBase name = name then
    let lp := lookPath name
    if lp ≠ [] then { cmd with Path := lp } else cmd
  else cmd

/-- Go `(*Server).runCommand`: nothing for an empty run list; otherwise the command is built
with `exec.CommandContext` (which leaves `Env` nil), the further arguments, the working
directory and the three environment entries are set, and `cmd.Run()` is entered and awaited. -/
def runCommand (lookPath : GoString → GoString) (s : Server) (host : Host) (mac : GoString) :
    List Effect :=
  match host.Run with
  | [] => []
  | name :: rest =>
    let cmd : Cmd := CommandContext lookPath name
    let cmd := if host.Run.length > 1 then { cmd with Args := cmd.Args ++ rest } else cmd
    let cmd := { cmd with Dir := s.workingDirectory }
    let cmd := { cmd with Env := (goAppend cmd.Env
      [['M', 'A', 'C', '='] ++ mac,
       ['H', 'O', 'S', 'T', '_', 'M', 'A', 'C', '='] ++ HardwareAddr.String (host.parsedMac.getD []),
       ['H', 'O', 'S', 'T', '_', 'N', 'A', 'M', 'E', '='] ++ host.Name]) }
    [Effect.cmdStarted cmd, Effect.cmdReturned cmd]

/-- Go `bytes.Equal`. -/
def bytesEqual (a b : List Byte) : Bool := decide (a = b)

/-- The condition of `runCommands`:
`Hosts[i].parsedMac == nil || bytes.Equal(Hosts[i].parsedMac, mac)`. -/
def hostMatches (mac : HardwareAddr) (h : Host) : Bool :=
  match h.parsedMac with
  | none => true
  | some p => bytesEqual p mac

/-- The loop `for i := range s.Config.Hosts` of `runCommands`: the calls of `runCommand` it
makes, each with the index `i`, the host `Hosts[i]` and the argument `mac.String()`. -/
def runCommands.calls (mac : HardwareAddr) : Nat → List Host → List (Nat × Host × GoString)
  | _, [] => []
  | i, h :: hs =>
    if hostMatches mac h then
      (i, h, HardwareAddr.String mac) :: runCommands.calls mac (i + 1) hs
    else
      runCommands.calls mac (i + 1) hs

/-- Go `(*Server).runCommands`: every call of `runCommand` is made in place, one after the
other. -/
def runCommands (lookPath : GoString → GoString) (s : Server) (mac : HardwareAddr) : List Effect :=
  (runCommands.calls mac 0 s.Config.Hosts).flatMap (fun c => runCommand lookPath s c.2.1 c.2.2)

/-! ## The read loop (`Serve`) -/

/-- Go `binary.Read(bytes.NewReader(b), binary.BigEndian, &mp)`: fails when fewer than 102
bytes are left, otherwise the header is the first 6 bytes and block `i` the 6 bytes at
`6 + 6*i`. -/
def binaryRead (b : List Byte) : Option MagicPacket :=
  if b.length < bufSize then none
  else some
    { Header := b.take 6
      Payload := (List.range 16).map (fun i => (b.drop (6 + 6 * i)).take 6) }

/-- The sanity loop of `Serve`: `for i := 1; i < len(mp.Payload); i++` with
`bytes.Equal(mac, mp.Payload[i][:])`. -/
def sanityCheck (mac : List Byte) (payload : List (List Byte)) : Bool :=
  (payload.drop 1).all (fun p => bytesEqual mac p)

/-- Result of the decode step of `Serve`. -/
inductive Decoded where
  | readFailed
  | malformed
  | accepted (addr : HardwareAddr)
deriving DecidableEq, Repr

/-- The decode step of `Serve` (lines 72 to 87): `binary.Read` on the whole buffer `buf[:]`,
then the sanity loop, then `addr := net.HardwareAddr(mp.Payload[0][:])`. -/
def Serve.decode (buf : List Byte) : Decoded :=
  match binaryRead buf with
  | none => Decoded.readFailed
  | some mp =>
    let mac := mp.Payload.headD []
    if sanityCheck mac mp.Payload then Decoded.accepted mac else Decoded.malformed

/-- What `s.listener.ReadFromUDP(buf[:])` leaves in the buffer: the first bytes of the datagram
overwrite the start of the buffer, the bytes after the received length stay as they were. -/
def readFromUDP (buf data : List Byte) : List Byte :=
  data.take buf.length ++ buf.drop data.length

/-- The body of the `case <-readerChan` branch once the read succeeded. -/
def Serve.handle (lookPath : GoString → GoString) (s : Server) (buf : List Byte) : List Effect :=
  match Serve.decode buf with
  | Decoded.readFailed => [Effect.logDecodeError]
  | Decoded.malformed => [Effect.logMalformed]
  | Decoded.accepted addr => runCommands lookPath s addr

/-- What the `select` of `Serve` observes in one iteration. -/
inductive SocketEvent where
  /-- Channel `readerChan` fired and `ReadFromUDP` returned this datagram with a nil error. -/
  | datagram (data : List Byte)
  /-- Channel `readerChan` fired and `ReadFromUDP` returned an error. -/
  | readError
  /-- Channel `stopCh` fired. -/
  | stop
deriving DecidableEq, Repr

/-- Where `Serve` is once the given events are used up. -/
inductive ServeStatus where
  /-- Still in the loop, waiting in `select`. -/
  | serving
  /-- Returned `nil` after a stop request. -/
  | returnedNil
  /-- Returned the error of `net.ListenUDP`. -/
  | returnedListenError
deriving DecidableEq, Repr

/-- Outcome of a run of `Serve`. -/
structure ServeResult where
  status : ServeStatus
  buf : List Byte
  trace : List Effect
deriving DecidableEq, Repr

/-- The `readSocket` loop of `Serve`. -/
def Serve.loop (lookPath : GoString → GoString) (s : Server) : List Byte → List SocketEvent → ServeResult
  | buf, [] => { status := ServeStatus.serving, buf := buf, trace := [Effect.readIssued] }
  | buf, SocketEvent.stop :: _ =>
    { status := ServeStatus.returnedNil, buf := buf, trace := [Effect.readIssued] }
  | buf, SocketEvent.readError :: rest =>
    let r := Serve.loop lookPath s buf rest
    { r with trace := Effect.readIssued :: Effect.logReadError :: r.trace }
  | buf, SocketEvent.datagram data :: rest =>
    let buf' := readFromUDP buf data
    let r := Serve.loop lookPath s buf' rest
    { r with trace := Effect.readIssued :: (Serve.handle lookPath s buf' ++ r.trace) }

/-- Go `(*Server).Serve`: `listenOk` tells whether `net.ListenUDP` succeeded; the buffer
`var buf [6 + 16*6]byte` starts zeroed. -/
def Serve (lookPath : GoString → GoString) (s : Server) (listenOk : Bool) (events : List SocketEvent) : ServeResult :=
  if listenOk then Serve.loop lookPath s (List.replicate bufSize 0) events
  else { status := ServeStatus.returnedListenError, buf := [], trace := [] }

/-- Block `i` of a datagram: the 6 bytes at offset `6 + 6*i`. -/
def packetBlock (d : List Byte) (i : Nat) : List Byte := (d.drop (6 + 6 * i)).take 6

/-! ## `net.ParseMAC` -/

/-- Go `byte(n)`. -/
def toByte (n : Nat) : Byte := ⟨n % 256, Nat.mod_lt n (by decide)⟩

/-- The constant `big` of package `net`. -/
def big : Nat := 0xFFFFFF

/-- The loop of `xtoi` of package `net`: hexadecimal digits are accumulated in `n`, `i` counts
the characters consumed; the result is `(n, i, ok)`. -/
def xtoi.loop : GoString → Nat → Nat → Nat × Nat × Bool
  | [], n, i => if i = 0 then (0, i, false) else (n, i, true)
  | c :: cs, n, i =>
    if '0' ≤ c ∧ c ≤ '9' then
      let n' := n * 16 + (c.toNat - '0'.toNat)
      if n' ≥ big then (0, i, false) else xtoi.loop cs n' (i + 1)
    else if 'a' ≤ c ∧ c ≤ 'f' then
      let n' := n * 16 + (c.toNat - 'a'.toNat) + 10
      if n' ≥ big then (0, i, false) else xtoi.loop cs n' (i + 1)
    else if 'A' ≤ c ∧ c ≤ 'F' then
      let n' := n * 16 + (c.toNat - 'A'.toNat) + 10
      if n' ≥ big then (0, i, false) else xtoi.loop cs n' (i + 1)
    else if i = 0 then (0, i, false) else (n, i, true)

/-- Go `xtoi(s string) (n int, i int, ok bool)` of package `net`. -/
def xtoi (s : GoString) : Nat × Nat × Bool := xtoi.loop s 0 0

/-- Go `xtoi2(s string, e byte) (byte, bool)` of package `net`: the next two hex digits of `s`
as a byte; a third byte, when there is one, must be `e`. -/
def xtoi2 (s : GoString) (e : Char) : Byte × Bool :=
  if s.length > 2 ∧ s.getD 2 e ≠ e then (0, false)
  else
    let r := xtoi (s.take 2)
    (toByte r.1, r.2.2 && r.2.1 == 2)

/-- The loop of `ParseMAC` for the forms `01:23:...` and `01-23-...`:
`hw[i], ok = xtoi2(s[x:], s[2])` with `x += 3`, run `n` times on the rest `s[x:]`. -/
def ParseMAC.loop3 (e : Char) : Nat → GoString → Option (List Byte)
  | 0, _ => some []
  | n + 1, s =>
    match xtoi2 s e with
    | (b, true) => (ParseMAC.loop3 e n (s.drop 3)).map (fun r => b :: r)
    | (_, false) => none

/-- The loop of `ParseMAC` for the form `0123.4567....`: `xtoi2(s[x:x+2], 0)`, then
`xtoi2(s[x+2:], s[4])`, with `x += 5`, run `n/2` times on the rest `s[x:]`. -/
def ParseMAC.loop5 (e : Char) : Nat → GoString → Option (List Byte)
  | 0, _ => some []
  | k + 1, s =>
    match xtoi2 (s.take 2) (Char.ofNat 0) with
    | (b1, true) =>
      match xtoi2 (s.drop 2) e with
      | (b2, true) => (ParseMAC.loop5 e k (s.drop 5)).map (fun r => b1 :: b2 :: r)
      | (_, false) => none
    | (_, false) => none

/-- Go `net.ParseMAC`; `none` is the error "invalid MAC address". -/
def ParseMAC (s : GoString) : Option HardwareAddr :=
  if s.length < 14 then none
  else if s.getD 2 (Char.ofNat 0) = ':' ∨ s.getD 2 (Char.ofNat 0) = '-' then
    if (s.length + 1) % 3 ≠ 0 then none
    else
      let n := (s.length + 1) / 3
      if n ≠ 6 ∧ n ≠ 8 ∧ n ≠ 20 then none
      else ParseMAC.loop3 (s.getD 2 (Char.ofNat 0)) n s
  else if s.getD 4 (Char.ofNat 0) = '.' then
    if (s.length + 1) % 5 ≠ 0 then none
    else
      let n := 2 * (s.length + 1) / 5
      if n ≠ 6 ∧ n ≠ 8 ∧ n ≠ 20 then none
      else ParseMAC.loop5 (s.getD 4 (Char.ofNat 0)) (n / 2) s
  else none

/-! ## `net.SplitHostPort`, `net.ParseIP`, `strconv.Atoi` -/

/-- Go `net.SplitHostPort`; `none` is any of its `AddrError`s. -/
def SplitHostPort (hostport : GoString) : Option (GoString × GoString) :=
  let i := LastIndexByteString hostport ':'
  if i < 0 then none
  else if hostport.head? = some '[' then
    let e := IndexByteString hostport ']'
    if e < 0 then none
    else if e + 1 = hostport.length then none
    else if e + 1 = i then
      let host := (hostport.take e.toNat).drop 1
      if IndexByteString (hostport.drop 1) '[' ≥ 0 then none
      else if IndexByteString (hostport.drop (e + 1).toNat) ']' ≥ 0 then none
      else some (host, hostport.drop (i + 1).toNat)
    else none
  else
    let host := hostport.take i.toNat
    if IndexByteString host ':' ≥ 0 then none
    else if IndexByteString hostport '[' ≥ 0 then none
    else if IndexByteString hostport ']' ≥ 0 then none
    else some (host, hostport.drop (i + 1).toNat)

/-- Go `net.ParseIP`: a text without `.` and `:` is no IP address (nil); any other text is
handed to the address parser of the standard library, which is the parameter `parseAddr`. -/
def ParseIP (parseAddr : GoString → Option (List Byte)) (s : GoString) : Option (List Byte) :=
  if s.any (fun c => c == '.' || c == ':') then parseAddr s else none

/-- Decimal digits of `strconv.Atoi`: the value of a text of digits `0`..`9` appended to the
value `n` read so far, `none` on any other byte. -/
def Atoi.digits : GoString → Nat → Option Nat
  | [], n => some n
  | c :: cs, n =>
    if '0' ≤ c ∧ c ≤ '9' then Atoi.digits cs (n * 10 + (c.toNat - '0'.toNat)) else none

/-- Go `strconv.Atoi` with a 64-bit `int`: an optional sign, at least one decimal digit, and a
value in the range of `int`; `none` is a syntax or range error. -/
def Atoi (s : GoString) : Option Int :=
  match s with
  | [] => none
  | c :: cs =>
    let neg := decide (c = '-')
    let ds := if c = '-' ∨ c = '+' then cs else s
    if ds.length < 1 then none
    else
      match Atoi.digits ds 0 with
      | none => none
      | some n =>
        if neg then (if n > 2 ^ 63 then none else some (-(n : Int)))
        else (if n ≥ 2 ^ 63 then none else some (n : Int))

/-! ## `ReadConfigFromReader` -/

/-- What the YAML decoder can fill of a `Host`: the exported fields `name`, `mac`, `run`. -/
structure YamlHost where
  Name : GoString
  Mac : GoString
  Run : List GoString
deriving DecidableEq, Repr

/-- What the YAML decoder can fill of a `Config`: the exported fields `binds`, `hosts`. -/
structure YamlConfig where
  Binds : List GoString
  Hosts : List YamlHost
deriving DecidableEq, Repr

/-- The errors of `ReadConfigFromReader`, one per `return nil, errors...`. -/
inductive ConfigError where
  | decode
  | noBinds
  | bindSplit (bind : GoString)
  | bindIP (bind : GoString)
  | bindPortSyntax (bind : GoString)
  | bindPortRange (bind : GoString)
  | noHosts
  | hostMac (name : GoString)
  | hostRun (name : GoString)
deriving DecidableEq, Repr

/-- The loop `for i, s := range config.Binds` of `ReadConfigFromReader`. -/
def ReadConfigFromReader.binds (parseAddr : GoString → Option (List Byte)) :
    List GoString → Except ConfigError (List UDPAddr)
  | [] => Except.ok []
  | s :: rest =>
    match SplitHostPort s with
    | none => Except.error (ConfigError.bindSplit s)
    | some (host, port) =>
      let ip := ParseIP parseAddr host
      if host ≠ [] ∧ ip = none then Except.error (ConfigError.bindIP s)
      else
        match Atoi port with
        | none => Except.error (ConfigError.bindPortSyntax s)
        | some nport =>
          if nport = 0 ∨ nport ≥ 65536 then Except.error (ConfigError.bindPortRange s)
          else
            match ReadConfigFromReader.binds parseAddr rest with
            | Except.error e => Except.error e
            | Except.ok r => Except.ok ({ IP := ip, Port := nport, Zone := [] } :: r)

/-- The loop `for i := range config.Hosts` of `ReadConfigFromReader`. -/
def ReadConfigFromReader.hosts : List YamlHost → Except ConfigError (List Host)
  | [] => Except.ok []
  | h :: rest =>
    let parsed : Except ConfigError (Option HardwareAddr) :=
      if h.Mac ≠ [] then
        match ParseMAC h.Mac with
        | none => Except.error (ConfigError.hostMac h.Name)
        | some m => Except.ok (some m)
      else Except.ok none
    match parsed with
    | Except.error e => Except.error e
    | Except.ok pm =>
      if h.Run.length = 0 then Except.error (ConfigError.hostRun h.Name)
      else
        match ReadConfigFromReader.hosts rest with
        | Except.error e => Except.error e
        | Except.ok r =>
          Except.ok ({ Name := h.Name, Mac := h.Mac, Run := h.Run, parsedMac := pm } :: r)

/-- Go `ReadConfigFromReader`, from the result of the YAML decoder on (`none` when
`yaml.NewDecoder(r).Decode(&config)` fails). An error result carries no configuration. -/
def ReadConfigFromReader (parseAddr : GoString → Option (List Byte))
    (decoded : Option YamlConfig) : Except ConfigError Config :=
  match decoded with
  | none => Except.error ConfigError.decode
  | some config =>
    if config.Binds.length = 0 then Except.error ConfigError.noBinds
    else
      match ReadConfigFromReader.binds parseAddr config.Binds with
      | Except.error e => Except.error e
      | Except.ok parsedBinds =>
        if config.Hosts.length = 0 then Except.error ConfigError.noHosts
        else
          match ReadConfigFromReader.hosts config.Hosts with
          | Except.error e => Except.error e
          | Except.ok hosts =>
            Except.ok { Binds := config.Binds, Hosts := hosts, parsedBinds := parsedBinds }

/-! ## Child environment, `Close`, and test fixtures -/

/-- Go `os/exec`: "If Env is nil, the new process uses the current process's environment";
otherwise the child gets the entries of `Env` (on POSIX systems nothing is added to them). -/
def Cmd.Environ (parentEnv : List GoString) (cmd : Cmd) : List GoString :=
  match cmd.Env with
  | none => parentEnv
  | some env => env

/-- Go `context.Context` as a caller hands it to `Close`: it may carry a deadline. -/
structure Context where
  deadline : Option Nat
deriving DecidableEq, Repr

/-- The state in which a call of `Close` finds the server. -/
inductive ListenerState where
  /-- Only `NewServer` was called: `Serve` never ran, `s.listener` is nil. -/
  | created
  /-- The goroutine of `Serve` was started and is in the given status. -/
  | serve (status : ServeStatus)
deriving DecidableEq, Repr

/-- What `Close` has done when it returns. -/
structure CloseResult where
  serveReturned : Bool
  socketClosed : Bool
deriving DecidableEq, Repr

/-- Go `(*Server).Close(context.Context)`: the context parameter has no name and is not used.
`s.stopCh <- struct{}{}` is a send on an unbuffered channel whose only receiver is the
`select` of `Serve`; it completes when `Serve` waits there, `Serve` then returns nil and
`s.listener.Close()` runs. When no goroutine is in the loop of `Serve` the send never
completes: `none`. -/
def Close (_ : Context) (st : ListenerState) : Option CloseResult :=
  match st with
  | ListenerState.serve ServeStatus.serving => some { serveReturned := true, socketClosed := true }
  | ListenerState.serve ServeStatus.returnedNil => none
  | ListenerState.serve ServeStatus.returnedListenError => none
  | ListenerState.created => none

/-- Whether an occurrence of `x` comes before an occurrence of `y` in a trace. -/
def precedes (x y : Effect) : List Effect → Bool
  | [] => false
  | e :: rest => if e = x then rest.contains y else precedes x y rest

/-- The IP parser on the addresses of the tests: `127.0.0.1` in the 16-byte form that
`net.ParseIP` returns, nothing else. -/
def testParseAddr (s : GoString) : Option (List Byte) :=
  if s = "127.0.0.1".toList then some [0, 0, 0, 0, 0, 0, 0, 0, 0, 0, 255, 255, 127, 0, 0, 1]
  else none

/-- An `exec.LookPath` for the fixtures: `env` is found as `/usr/bin/env`, nothing else is
found. -/
def testLookPath (name : GoString) : GoString :=
  if name = "env".toList then "/usr/bin/env".toList else []

/-- The helper `sendMagicPaket` of `server_test.go`: header `FF FF FF FF FF FF`, then 16
copies of `mac[:6]`. -/
def sendMagicPaket (mac : HardwareAddr) : List Byte :=
  List.replicate 6 255 ++ (List.replicate 16 (mac.take 6)).flatten

/-- A host without `mac` (wildcard), as `ReadConfigFromReader` returns it. -/
def wildcardHost : Host :=
  { Name := "wildcard".toList, Mac := [], Run := ["/bin/false".toList], parsedMac := none }

/-- A server for the bind `127.0.0.1:9000` and the hosts given. -/
def serverFor (hosts : List Host) : Server :=
  { Bind := { IP := testParseAddr "127.0.0.1".toList, Port := 9000, Zone := [] }
    Config :=
      { Binds := ["127.0.0.1:9000".toList]
        Hosts := hosts
        parsedBinds := [{ IP := testParseAddr "127.0.0.1".toList, Port := 9000, Zone := [] }] }
    workingDirectory := "/srv".toList }

/-- The command that `runCommand` builds for `wildcardHost` and the given packet address. -/
def wildcardCmd (mac : GoString) : Cmd :=
  { Path := "/bin/false".toList
    Args := ["/bin/false".toList]
    Dir := "/srv".toList
    Env := some ["MAC=".toList ++ mac, "HOST_MAC=".toList, "HOST_NAME=wildcard".toList] }

/-- The decoded document of the case `everything correct` of `TestReadConfigFromReader`. -/
def testDocument : YamlConfig :=
  { Binds := ["127.0.0.1:9".toList, ":7".toList]
    Hosts :=
      [{ Name := "joe".toList, Mac := "00-01-02-03-04-05".toList, Run := ["/bin/false".toList] },
       { Name := "alice".toList, Mac := "01-01-02-03-04-05".toList,
         Run := ["/bin/false".toList] },
       { Name := "wildcard".toList, Mac := [], Run := ["/bin/false".toList] }] }

/-- The configuration that the case `everything correct` of `TestReadConfigFromReader`
expects. -/
def testConfig : Config :=
  { Binds := ["127.0.0.1:9".toList, ":7".toList]
    Hosts :=
      [{ Name := "joe".toList, Mac := "00-01-02-03-04-05".toList, Run := ["/bin/false".toList],
         parsedMac := some [0, 1, 2, 3, 4, 5] },
       { Name := "alice".toList, Mac := "01-01-02-03-04-05".toList,
         Run := ["/bin/false".toList], parsedMac := some [1, 1, 2, 3, 4, 5] },
       { Name := "wildcard".toList, Mac := [], Run := ["/bin/false".toList],
         parsedMac := none }]
    parsedBinds :=
      [{ IP := some [0, 0, 0, 0, 0, 0, 0, 0, 0, 0, 255, 255, 127, 0, 0, 1], Port := 9,
         Zone := [] },
       { IP := none, Port := 7, Zone := [] }] }

/-- The decoded document of `TestServer`, case `specific mac`: bind `127.0.0.1:9000`, one
host `joe` with mac `00:01:02:03:04:05` and the command `env`. -/
def joeDocument : YamlConfig :=
  { Binds := ["127.0.0.1:9000".toList]
    Hosts := [{ Name := "joe".toList, Mac := "00:01:02:03:04:05".toList,
                Run := ["env".toList] }] }

/-- The host `joe` as `ReadConfigFromReader` returns it. -/
def joeHost : Host :=
  { Name := "joe".toList, Mac := "00:01:02:03:04:05".toList, Run := ["env".toList],
    parsedMac := some [0, 1, 2, 3, 4, 5] }

/-- A wildcard host whose command outlives the timeout. -/
def slowHost : Host :=
  { Name := "slow".toList, Mac := [], Run := ["/bin/sleep".toList, "60".toList],
    parsedMac := none }

/-- The command that `runCommand` builds for `slowHost` and the given packet address. -/
def slowCmd (mac : GoString) : Cmd :=
  { Path := "/bin/sleep".toList
    Args := ["/bin/sleep".toList, "60".toList]
    Dir := "/srv".toList
    Env := some ["MAC=".toList ++ mac, "HOST_MAC=".toList, "HOST_NAME=slow".toList] }

/-- Whether every entry into `cmd.Run()` in a trace is directly followed by the return of the
same command. -/
def paired : List Effect → Bool
  | [] => true
  | Effect.cmdStarted c :: Effect.cmdReturned c' :: t => decide (c = c') && paired t
  | Effect.cmdStarted _ :: _ => false
  | _ :: t => paired t

/-! ## Theorems -/

/-- A list of length 6 is a list of six elements. -/
theorem length_six {α : Type} (l : List α) (h : l.length = 6) :
    ∃ a b c d e f, l = [a, b, c, d, e, f] := by
  match l, h with
  | [a, b, c, d, e, f], _ => exact ⟨a, b, c, d, e, f, rfl⟩

/-- The size of the buffer is never changed by `ReadFromUDP`. -/
theorem readFromUDP_length (buf data : List Byte) :
    (readFromUDP buf data).length = buf.length := by
  simp only [readFromUDP, List.length_append, List.length_take, List.length_drop]
  omega

/-- A datagram that fills the buffer replaces it. -/
theorem readFromUDP_full (buf data : List Byte) (h : data.length = buf.length) :
    readFromUDP buf data = data := by
  simp only [readFromUDP]
  rw [← h, List.take_length, List.drop_eq_nil_of_le (by omega), List.append_nil]

/-- The buffer of `Serve.loop` keeps its size. -/
theorem Serve.loop_buf_length (lookPath : GoString → GoString) (s : Server) (events : List SocketEvent) (buf : List Byte) :
    (Serve.loop lookPath s buf events).buf.length = buf.length := by
  induction events generalizing buf with
  | nil => simp [Serve.loop]
  | cons ev rest ih =>
    cases ev with
    | datagram data => simp [Serve.loop, ih, readFromUDP_length]
    | readError => simp [Serve.loop, ih]
    | stop => simp [Serve.loop]

/-- Whenever `Serve` is in its loop, the receive buffer has its 102 bytes. -/
theorem Serve.buf_length (lookPath : GoString → GoString) (s : Server) (events : List SocketEvent) :
    (Serve lookPath s true events).buf.length = bufSize := by
  simp only [Serve, ↓reduceIte, Serve.loop_buf_length, List.length_replicate]

/-- A full frame decodes to its blocks. -/
theorem binaryRead_full (d : List Byte) (h : d.length = bufSize) :
    binaryRead d = some
      { Header := d.take 6, Payload := (List.range 16).map (packetBlock d) } := by
  simp [binaryRead, h, packetBlock]

/-- The decode step on 16 identical blocks accepts the block. -/
theorem Serve.decode_identical (hdr a : List Byte) (hh : hdr.length = 6) (ha : a.length = 6) :
    Serve.decode (hdr ++ (List.replicate 16 a).flatten) = Decoded.accepted a := by
  obtain ⟨h0, h1, h2, h3, h4, h5, rfl⟩ := length_six hdr hh
  obtain ⟨a0, a1, a2, a3, a4, a5, rfl⟩ := length_six a ha
  simp [Serve.decode, binaryRead, bufSize, sanityCheck, bytesEqual, List.replicate, List.range,
    List.range.loop]

/-- The decode step on a full frame with two different blocks reports a malformed packet. -/
theorem Serve.decode_differing (d : List Byte) (hd : d.length = bufSize) (i j : Nat)
    (hi : i < 16) (hj : j < 16) (hne : packetBlock d i ≠ packetBlock d j) :
    Serve.decode d = Decoded.malformed := by
  have hall : sanityCheck (packetBlock d 0) ((List.range 16).map (packetBlock d)) = false := by
    by_contra hc
    have hc' : sanityCheck (packetBlock d 0) ((List.range 16).map (packetBlock d)) = true := by
      simpa using hc
    have key : ∀ k, k < 16 → packetBlock d k = packetBlock d 0 := by
      intro k hk
      simp [sanityCheck, bytesEqual, List.range, List.range.loop] at hc'
      obtain ⟨e1, e2, e3, e4, e5, e6, e7, e8, e9, e10, e11, e12, e13, e14, e15⟩ := hc'
      interval_cases k <;> first | rfl | (symm; assumption)
    exact hne ((key i hi).trans (key j hj).symm)
  rw [Serve.decode, binaryRead_full d hd]
  simp only [List.range, List.range.loop, List.map, List.headD] at hall ⊢
  simp [hall]

/-! ### `ParseMAC` reads back what `HardwareAddr.String` writes -/

set_option maxRecDepth 100000 in
/-- The two hex digits written for a byte are read back as that byte. -/
theorem xtoi_hex (b : Byte) :
    xtoi [hexDigitAt (b.val / 16), hexDigitAt (b.val % 16)] = (b.val, 2, true) := by
  revert b
  decide

/-- Go `byte(n)` of a byte value is that byte. -/
theorem toByte_val (b : Byte) : toByte b.val = b := by
  apply Fin.ext
  simp only [toByte]
  omega

/-- A group of two hex digits followed by the separator is read back by `xtoi2`. -/
theorem xtoi2_hex_sep (b : Byte) (rest : GoString) :
    xtoi2 (hexDigitAt (b.val / 16) :: hexDigitAt (b.val % 16) :: ':' :: rest) ':'
      = (b, true) := by
  simp [xtoi2, xtoi_hex, toByte_val]

/-- The last group of two hex digits is read back by `xtoi2`. -/
theorem xtoi2_hex_last (b : Byte) :
    xtoi2 [hexDigitAt (b.val / 16), hexDigitAt (b.val % 16)] ':' = (b, true) := by
  simp [xtoi2, xtoi_hex, toByte_val]

/-- The text of a 6-byte address is not empty. -/
theorem HardwareAddr.String_ne_nil (a : HardwareAddr) (ha : a.length = 6) :
    HardwareAddr.String a ≠ [] := by
  obtain ⟨a0, a1, a2, a3, a4, a5, rfl⟩ := length_six a ha
  simp [HardwareAddr.String, HardwareAddr.String.loop]

/-- The text that `HardwareAddr.String` writes for a 6-byte address is read back by
`ParseMAC`. -/
theorem ParseMAC_String (a : HardwareAddr) (ha : a.length = 6) :
    ParseMAC (HardwareAddr.String a) = some a := by
  obtain ⟨a0, a1, a2, a3, a4, a5, rfl⟩ := length_six a ha
  simp [HardwareAddr.String, HardwareAddr.String.loop, ParseMAC, ParseMAC.loop3, xtoi2_hex_sep,
    xtoi2_hex_last]

/-! ### The read loop: decoding and dispatch -/

/-- Length of a frame built from a header and 16 copies of a block. -/
theorem frame_length (hdr a : List Byte) (hh : hdr.length = 6) (ha : a.length = 6) :
    (hdr ++ (List.replicate 16 a).flatten).length = bufSize := by
  obtain ⟨h0, h1, h2, h3, h4, h5, rfl⟩ := length_six hdr hh
  obtain ⟨a0, a1, a2, a3, a4, a5, rfl⟩ := length_six a ha
  rfl

/-- The branch of `Serve` on an accepted buffer is `runCommands`. -/
theorem Serve.handle_accepted (lookPath : GoString → GoString) (s : Server) (p a : List Byte)
    (h : Serve.decode p = Decoded.accepted a) : Serve.handle lookPath s p = runCommands lookPath s a := by
  simp only [Serve.handle, h]

/-- The branch of `Serve` on a malformed buffer only logs. -/
theorem Serve.handle_malformed (lookPath : GoString → GoString) (s : Server) (p : List Byte)
    (h : Serve.decode p = Decoded.malformed) : Serve.handle lookPath s p = [Effect.logMalformed] := by
  simp only [Serve.handle, h]

/-- One iteration of the loop of `Serve` on a datagram. -/
theorem Serve.loop_datagram (lookPath : GoString → GoString) (s : Server) (buf p : List Byte) (rest : List SocketEvent) :
    Serve.loop lookPath s buf (SocketEvent.datagram p :: rest) =
      { status := (Serve.loop lookPath s (readFromUDP buf p) rest).status
        buf := (Serve.loop lookPath s (readFromUDP buf p) rest).buf
        trace := Effect.readIssued ::
          (Serve.handle lookPath s (readFromUDP buf p) ++ (Serve.loop lookPath s (readFromUDP buf p) rest).trace) } := by
  simp only [Serve.loop]

/-- A well-formed frame for `a`, received into a buffer of the right size, is dispatched to
`runCommands` with `a`. -/
theorem Serve.handle_frame (lookPath : GoString → GoString) (s : Server) (buf hdr a : List Byte)
    (hbuf : buf.length = bufSize) (hh : hdr.length = 6) (ha : a.length = 6) :
    Serve.handle lookPath s (readFromUDP buf (hdr ++ (List.replicate 16 a).flatten)) = runCommands lookPath s a := by
  rw [readFromUDP_full buf _ ((frame_length hdr a hh ha).trans hbuf.symm)]
  exact Serve.handle_accepted lookPath s _ a (Serve.decode_identical hdr a hh ha)

/-- C1: for every 102-byte datagram made of any 6-byte header `hdr` followed by 16 copies of
a 6-byte block `a`, received into the buffer in any state, the decode step of `Serve` accepts
the packet with address exactly `a`, the branch runs `runCommands` on `a`, and the loop goes
on with the rest of the events. -/
theorem C1_serve_accepts_identical_blocks (lookPath : GoString → GoString) (s : Server) (buf hdr a : List Byte)
    (rest : List SocketEvent)
    (hbuf : buf.length = bufSize) (hh : hdr.length = 6) (ha : a.length = 6) :
    Serve.decode (readFromUDP buf (hdr ++ (List.replicate 16 a).flatten)) = Decoded.accepted a ∧
    Serve.handle lookPath s (readFromUDP buf (hdr ++ (List.replicate 16 a).flatten)) = runCommands lookPath s a ∧
    (Serve.loop lookPath s buf (SocketEvent.datagram (hdr ++ (List.replicate 16 a).flatten) :: rest)).trace
      = Effect.readIssued ::
          (runCommands lookPath s a ++
            (Serve.loop lookPath s (hdr ++ (List.replicate 16 a).flatten) rest).trace) := by
  have hfull := readFromUDP_full buf (hdr ++ (List.replicate 16 a).flatten)
    ((frame_length hdr a hh ha).trans hbuf.symm)
  have hdec := Serve.decode_identical hdr a hh ha
  rw [Serve.loop_datagram, hfull]
  exact ⟨hdec, Serve.handle_accepted lookPath s _ a hdec, by rw [Serve.handle_accepted lookPath s _ a hdec]⟩

/-- Witness of C1: a packet for `00:01:02:03:04:05` with an all-zero header, received first. -/
theorem C1_serve_accepts_identical_blocks_witness :
    Serve.decode (readFromUDP (List.replicate bufSize 0)
        (List.replicate 6 0 ++ (List.replicate 16 [0, 1, 2, 3, 4, 5]).flatten))
      = Decoded.accepted [0, 1, 2, 3, 4, 5] :=
  (C1_serve_accepts_identical_blocks testLookPath (serverFor [wildcardHost]) (List.replicate bufSize 0)
    (List.replicate 6 0) [0, 1, 2, 3, 4, 5] [] (by decide) (by decide) (by decide)).1

/-- C3: for every 102-byte datagram `d` in which two of the 16 blocks differ, received into
the buffer in any state, the decode step reports a malformed packet (no address), the branch
only logs (no `runCommands`, no command), and `Serve` stays in its loop: a well-formed packet
for `a` that follows is decoded and handed to `runCommands`. -/
theorem C3_differing_blocks_malformed (lookPath : GoString → GoString) (s : Server) (buf d hdr a : List Byte) (i j : Nat)
    (hbuf : buf.length = bufSize) (hd : d.length = bufSize)
    (hi : i < 16) (hj : j < 16) (hne : packetBlock d i ≠ packetBlock d j)
    (hh : hdr.length = 6) (ha : a.length = 6) :
    Serve.decode (readFromUDP buf d) = Decoded.malformed ∧
    Serve.handle lookPath s (readFromUDP buf d) = [Effect.logMalformed] ∧
    Serve.loop lookPath s buf
        [SocketEvent.datagram d, SocketEvent.datagram (hdr ++ (List.replicate 16 a).flatten)]
      = { status := ServeStatus.serving
          buf := hdr ++ (List.replicate 16 a).flatten
          trace := [Effect.readIssued, Effect.logMalformed, Effect.readIssued] ++
            runCommands lookPath s a ++ [Effect.readIssued] } := by
  have hfull : readFromUDP buf d = d := readFromUDP_full buf d (by rw [hd, hbuf])
  have hfull2 := readFromUDP_full d (hdr ++ (List.replicate 16 a).flatten)
    ((frame_length hdr a hh ha).trans hd.symm)
  have hdec := Serve.decode_differing d hd i j hi hj hne
  have hdec2 := Serve.decode_identical hdr a hh ha
  rw [Serve.loop_datagram, Serve.loop_datagram, hfull, hfull2,
    Serve.handle_malformed lookPath s d hdec, Serve.handle_accepted lookPath s _ a hdec2]
  refine ⟨hdec, rfl, ?_⟩
  simp only [Serve.loop, List.cons_append, List.nil_append, List.append_assoc]

/-- Witness of C3: blocks 0 and 1 of the frame differ (one byte set in block 1); the packet
that follows is for `00:01:02:03:04:05`. -/
theorem C3_differing_blocks_malformed_witness :
    Serve.decode (readFromUDP (List.replicate bufSize 0)
        (List.replicate 12 0 ++ [7] ++ List.replicate 89 0)) = Decoded.malformed :=
  (C3_differing_blocks_malformed testLookPath (serverFor [wildcardHost]) (List.replicate bufSize 0)
    (List.replicate 12 0 ++ [7] ++ List.replicate 89 0) (List.replicate 6 255)
    [0, 1, 2, 3, 4, 5] 0 1 (by decide) (by decide) (by decide) (by decide) (by decide)
    (by decide) (by decide)).1

/-! ### Host matching -/

/-- The calls made by the loop of `runCommands` from index `i` on. -/
theorem runCommands.calls_eq (mac : HardwareAddr) (hosts : List Host) (i : Nat) :
    runCommands.calls mac i hosts =
      ((hosts.enumFrom i).filter
          (fun ih => decide (ih.2.parsedMac = none ∨ ih.2.parsedMac = some mac))).map
        (fun ih => (ih.1, ih.2, HardwareAddr.String mac)) := by
  induction hosts generalizing i with
  | nil => rfl
  | cons h hs ih =>
    have hm : hostMatches mac h = decide (h.parsedMac = none ∨ h.parsedMac = some mac) := by
      cases hp : h.parsedMac with
      | none => simp [hostMatches, hp]
      | some q => simp [hostMatches, hp, bytesEqual]
    simp only [runCommands.calls, List.enumFrom, List.filter_cons, hm, ih (i + 1)]
    split <;> rfl

/-- C4: for every decoded address `mac` and every host list, the calls of `runCommand` made by
`runCommands` are, in configured order and once per position, exactly the hosts whose parsed
MAC is absent or equal to `mac`, each with the text of `mac`; the effects of `runCommands` are
those of these calls in that order; and for hosts `[{mac:A}, {wildcard}, {mac:A}]` and address
`A` the calls are those for positions 0, 1 and 2. -/
theorem C4_runCommands_matches_in_order (lookPath : GoString → GoString) (s : Server) (mac : HardwareAddr) :
    runCommands.calls mac 0 s.Config.Hosts =
      (s.Config.Hosts.enum.filter
          (fun ih => decide (ih.2.parsedMac = none ∨ ih.2.parsedMac = some mac))).map
        (fun ih => (ih.1, ih.2, HardwareAddr.String mac)) ∧
    runCommands lookPath s mac =
      (s.Config.Hosts.filter
          (fun h => decide (h.parsedMac = none ∨ h.parsedMac = some mac))).flatMap
        (fun h => runCommand lookPath s h (HardwareAddr.String mac)) ∧
    ∀ (n1 n2 n3 m1 m2 m3 : GoString) (r1 r2 r3 : List GoString),
      runCommands.calls mac 0
          [{ Name := n1, Mac := m1, Run := r1, parsedMac := some mac },
           { Name := n2, Mac := m2, Run := r2, parsedMac := none },
           { Name := n3, Mac := m3, Run := r3, parsedMac := some mac }] =
        [(0, { Name := n1, Mac := m1, Run := r1, parsedMac := some mac },
            HardwareAddr.String mac),
         (1, { Name := n2, Mac := m2, Run := r2, parsedMac := none }, HardwareAddr.String mac),
         (2, { Name := n3, Mac := m3, Run := r3, parsedMac := some mac },
            HardwareAddr.String mac)] := by
  refine ⟨runCommands.calls_eq mac s.Config.Hosts 0, ?_, ?_⟩
  · rw [runCommands, runCommands.calls_eq]
    generalize s.Config.Hosts = hosts
    generalize 0 = i
    induction hosts generalizing i with
    | nil => rfl
    | cons h hs ih =>
      simp only [List.enumFrom, List.filter_cons]
      split
      · simp only [List.map_cons, List.flatMap_cons, ih (i + 1)]
      · exact ih (i + 1)
  · intro n1 n2 n3 m1 m2 m3 r1 r2 r3
    simp [runCommands.calls, hostMatches, bytesEqual]

/-! ### Short datagrams -/

set_option maxRecDepth 100000 in
/-- C2, on the code: the first datagram received is empty (0 bytes) and the configuration has
one wildcard host. The decode step reads the 102 zero bytes of the untouched buffer, accepts
them as a packet for `00:00:00:00:00:00` and runs the host's command. And after a valid packet
for `00:01:02:03:04:05`, an empty datagram makes the command run a second time for that
address. -/
theorem C2_short_datagram_dispatches (lookPath : GoString → GoString) :
    Serve.decode (readFromUDP (List.replicate bufSize 0) []) =
        Decoded.accepted [0, 0, 0, 0, 0, 0] ∧
    (Serve lookPath (serverFor [wildcardHost]) true [SocketEvent.datagram []]).trace =
      [Effect.readIssued,
       Effect.cmdStarted (wildcardCmd "00:00:00:00:00:00".toList),
       Effect.cmdReturned (wildcardCmd "00:00:00:00:00:00".toList),
       Effect.readIssued] ∧
    (Serve lookPath (serverFor [wildcardHost]) true
        [SocketEvent.datagram (sendMagicPaket [0, 1, 2, 3, 4, 5]), SocketEvent.datagram []]).trace =
      [Effect.readIssued,
       Effect.cmdStarted (wildcardCmd "00:01:02:03:04:05".toList),
       Effect.cmdReturned (wildcardCmd "00:01:02:03:04:05".toList),
       Effect.readIssued,
       Effect.cmdStarted (wildcardCmd "00:01:02:03:04:05".toList),
       Effect.cmdReturned (wildcardCmd "00:01:02:03:04:05".toList),
       Effect.readIssued] := by
  refine ⟨by decide, rfl, rfl⟩

/-! ### Configuration checks -/

/-- An IP text is never parsed from the empty host part. -/
theorem ParseIP_nil (parseAddr : GoString → Option (List Byte)) : ParseIP parseAddr [] = none := by
  simp [ParseIP]

/-- What the binds loop has checked and stored when it succeeds. -/
theorem ReadConfigFromReader.binds_ok (parseAddr : GoString → Option (List Byte))
    (bs : List GoString) (pb : List UDPAddr)
    (h : ReadConfigFromReader.binds parseAddr bs = Except.ok pb) :
    List.Forall₂
      (fun b u => ∃ host port n, SplitHostPort b = some (host, port) ∧
        (host = [] ∨ ParseIP parseAddr host ≠ none) ∧ Atoi port = some n ∧
        n ≠ 0 ∧ n < 65536 ∧ u = { IP := ParseIP parseAddr host, Port := n, Zone := [] })
      bs pb := by
  induction bs generalizing pb with
  | nil =>
    simp only [ReadConfigFromReader.binds, Except.ok.injEq] at h
    subst h
    exact List.Forall₂.nil
  | cons b rest ih =>
    simp only [ReadConfigFromReader.binds] at h
    split at h
    · exact absurd h (by simp)
    · rename_i host port hsplit
      split at h
      · exact absurd h (by simp)
      · rename_i hip
        split at h
        · exact absurd h (by simp)
        · rename_i nport hatoi
          split at h
          · exact absurd h (by simp)
          · rename_i hrange
            split at h
            · exact absurd h (by simp)
            · rename_i r hr
              simp only [Except.ok.injEq] at h
              subst h
              refine List.Forall₂.cons ⟨host, port, nport, hsplit, ?_, hatoi, ?_, ?_, rfl⟩ (ih r hr)
              · by_cases hhost : host = []
                · exact Or.inl hhost
                · exact Or.inr (fun hnone => hip ⟨hhost, hnone⟩)
              · exact fun h0 => hrange (Or.inl h0)
              · exact lt_of_not_ge (fun hge => hrange (Or.inr hge))

/-- What the hosts loop has checked and stored when it succeeds. -/
theorem ReadConfigFromReader.hosts_ok (ys : List YamlHost) (hs : List Host)
    (h : ReadConfigFromReader.hosts ys = Except.ok hs) :
    List.Forall₂
      (fun y x => x.Name = y.Name ∧ x.Mac = y.Mac ∧ x.Run = y.Run ∧ x.Run ≠ [] ∧
        (y.Mac = [] → x.parsedMac = none) ∧
        (y.Mac ≠ [] → ∃ m, ParseMAC y.Mac = some m ∧ x.parsedMac = some m))
      ys hs := by
  induction ys generalizing hs with
  | nil =>
    simp only [ReadConfigFromReader.hosts, Except.ok.injEq] at h
    subst h
    exact List.Forall₂.nil
  | cons y rest ih =>
    simp only [ReadConfigFromReader.hosts] at h
    by_cases hmac : y.Mac = []
    · simp only [hmac, ne_eq, not_true_eq_false, ↓reduceIte] at h
      split at h
      · exact absurd h (by simp)
      · rename_i hrun
        split at h
        · exact absurd h (by simp)
        · rename_i r hr
          simp only [Except.ok.injEq] at h
          subst h
          refine List.Forall₂.cons ⟨rfl, hmac.symm ▸ rfl, rfl, ?_, fun _ => rfl,
            fun hne => absurd hmac hne⟩ (ih r hr)
          intro hnil
          exact hrun (congrArg List.length (show y.Run = [] from hnil))
    · simp only [hmac, ne_eq, not_false_eq_true, ↓reduceIte] at h
      cases hp : ParseMAC y.Mac with
      | none => simp [hp] at h
      | some m =>
        simp only [hp] at h
        split at h
        · exact absurd h (by simp)
        · rename_i hrun
          split at h
          · exact absurd h (by simp)
          · rename_i r hr
            simp only [Except.ok.injEq] at h
            subst h
            refine List.Forall₂.cons ⟨rfl, rfl, rfl, ?_, fun he => absurd he hmac,
              fun _ => ⟨m, hp, rfl⟩⟩ (ih r hr)
            intro hnil
            exact hrun (congrArg List.length (show y.Run = [] from hnil))

/-- What `ReadConfigFromReader` has established when it returns a configuration. -/
theorem ReadConfigFromReader.ok_inv (parseAddr : GoString → Option (List Byte))
    (doc : YamlConfig) (cfg : Config)
    (h : ReadConfigFromReader parseAddr (some doc) = Except.ok cfg) :
    doc.Binds ≠ [] ∧ doc.Hosts ≠ [] ∧ cfg.Binds = doc.Binds ∧
      ReadConfigFromReader.binds parseAddr doc.Binds = Except.ok cfg.parsedBinds ∧
      ReadConfigFromReader.hosts doc.Hosts = Except.ok cfg.Hosts := by
  simp only [ReadConfigFromReader] at h
  split at h
  · exact absurd h (by simp)
  · rename_i hb
    split at h
    · exact absurd h (by simp)
    · rename_i pb hpb
      split at h
      · exact absurd h (by simp)
      · rename_i hh
        split at h
        · exact absurd h (by simp)
        · rename_i hs hhs
          simp only [Except.ok.injEq] at h
          subst h
          refine ⟨?_, ?_, rfl, hpb, hhs⟩
          · intro hnil
            exact hb (by simp only [hnil, List.length_nil])
          · intro hnil
            exact hh (by simp only [hnil, List.length_nil])

/-- Every element on the left of a `Forall₂` has a related element on the right. -/
theorem forall₂_left {α β : Type} {R : α → β → Prop} {l₁ : List α} {l₂ : List β}
    (h : List.Forall₂ R l₁ l₂) : ∀ a ∈ l₁, ∃ b ∈ l₂, R a b := by
  induction h with
  | nil => intro a ha; cases ha
  | cons hr _ ih =>
    intro a ha
    rcases List.mem_cons.mp ha with rfl | ha
    · exact ⟨_, List.mem_cons_self _ _, hr⟩
    · obtain ⟨b, hb, hab⟩ := ih a ha
      exact ⟨b, List.mem_cons_of_mem _ hb, hab⟩

/-- Every element on the right of a `Forall₂` has a related element on the left. -/
theorem forall₂_right {α β : Type} {R : α → β → Prop} {l₁ : List α} {l₂ : List β}
    (h : List.Forall₂ R l₁ l₂) : ∀ b ∈ l₂, ∃ a ∈ l₁, R a b := by
  induction h with
  | nil => intro b hb; cases hb
  | cons hr _ ih =>
    intro b hb
    rcases List.mem_cons.mp hb with rfl | hb
    · exact ⟨_, List.mem_cons_self _ _, hr⟩
    · obtain ⟨a, ha, hab⟩ := ih b hb
      exact ⟨a, List.mem_cons_of_mem _ ha, hab⟩

/-- C8: `ReadConfigFromReader` returns an error (and so no configuration) whenever the decoded
document has no binds, a bind that `SplitHostPort` rejects or whose host part is neither empty
nor a valid IP, no hosts, a host with a non-empty mac that `ParseMAC` rejects, or a host with
an empty run list. Hence every configuration it returns keeps the bind strings, has at least
one bind and one host, one parsed bind per bind string in the same order (IP parsed from the
host part, absent when the host part is empty, port parsed from the port part), the hosts of
the document in order, and on every host a non-empty run list and a parsed MAC that is absent
exactly when the mac text is empty and is the `ParseMAC` value of the text otherwise. -/
theorem C8_config_validation (parseAddr : GoString → Option (List Byte)) (doc : YamlConfig) :
    ((doc.Binds = [] ∨
      (∃ b ∈ doc.Binds, SplitHostPort b = none ∨
        ∃ host port, SplitHostPort b = some (host, port) ∧ host ≠ [] ∧
          ParseIP parseAddr host = none) ∨
      doc.Hosts = [] ∨
      (∃ y ∈ doc.Hosts, y.Mac ≠ [] ∧ ParseMAC y.Mac = none) ∨
      (∃ y ∈ doc.Hosts, y.Run = [])) →
        ∃ e, ReadConfigFromReader parseAddr (some doc) = Except.error e) ∧
    (∀ cfg, ReadConfigFromReader parseAddr (some doc) = Except.ok cfg →
      cfg.Binds = doc.Binds ∧ cfg.Binds ≠ [] ∧ cfg.Hosts ≠ [] ∧
      List.Forall₂
        (fun b u => ∃ host port n, SplitHostPort b = some (host, port) ∧ Atoi port = some n ∧
          u = { IP := ParseIP parseAddr host, Port := n, Zone := [] } ∧
          (host = [] → u.IP = none))
        cfg.Binds cfg.parsedBinds ∧
      List.Forall₂ (fun y x => x.Name = y.Name ∧ x.Mac = y.Mac ∧ x.Run = y.Run)
        doc.Hosts cfg.Hosts ∧
      ∀ x ∈ cfg.Hosts, x.Run ≠ [] ∧ (x.parsedMac = none ↔ x.Mac = []) ∧
        (x.Mac ≠ [] → x.parsedMac = ParseMAC x.Mac)) := by
  have good : ∀ cfg, ReadConfigFromReader parseAddr (some doc) = Except.ok cfg →
      doc.Binds ≠ [] ∧ doc.Hosts ≠ [] ∧ cfg.Binds = doc.Binds ∧
      List.Forall₂
        (fun b u => ∃ host port n, SplitHostPort b = some (host, port) ∧
          (host = [] ∨ ParseIP parseAddr host ≠ none) ∧ Atoi port = some n ∧
          n ≠ 0 ∧ n < 65536 ∧ u = { IP := ParseIP parseAddr host, Port := n, Zone := [] })
        doc.Binds cfg.parsedBinds ∧
      List.Forall₂
        (fun y x => x.Name = y.Name ∧ x.Mac = y.Mac ∧ x.Run = y.Run ∧ x.Run ≠ [] ∧
          (y.Mac = [] → x.parsedMac = none) ∧
          (y.Mac ≠ [] → ∃ m, ParseMAC y.Mac = some m ∧ x.parsedMac = some m))
        doc.Hosts cfg.Hosts := by
    intro cfg h
    obtain ⟨hb, hh, hbinds, hpb, hhs⟩ := ReadConfigFromReader.ok_inv parseAddr doc cfg h
    exact ⟨hb, hh, hbinds, ReadConfigFromReader.binds_ok parseAddr _ _ hpb,
      ReadConfigFromReader.hosts_ok _ _ hhs⟩
  constructor
  · intro hbad
    cases hres : ReadConfigFromReader parseAddr (some doc) with
    | error e => exact ⟨e, rfl⟩
    | ok cfg =>
      exfalso
      obtain ⟨hb, hh, -, hfb, hfh⟩ := good cfg hres
      rcases hbad with h | ⟨b, hbmem, hbbad⟩ | h | ⟨y, hy, hmac, hparse⟩ | ⟨y, hy, hrun⟩
      · exact hb h
      · obtain ⟨u, -, host, port, n, hsplit, hhost, -⟩ := forall₂_left hfb b hbmem
        rcases hbbad with hnone | ⟨host', port', hsplit', hne, hip⟩
        · rw [hnone] at hsplit
          cases hsplit
        · rw [hsplit'] at hsplit
          cases hsplit
          rcases hhost with h0 | h1
          · exact hne h0
          · exact h1 hip
      · exact hh h
      · obtain ⟨x, -, -, -, -, -, -, hsome⟩ := forall₂_left hfh y hy
        obtain ⟨m, hm, -⟩ := hsome hmac
        rw [hparse] at hm
        cases hm
      · obtain ⟨x, -, -, -, hxrun, hxne, -⟩ := forall₂_left hfh y hy
        exact hxne (hxrun.trans hrun)
  · intro cfg hres
    obtain ⟨hb, hh, hbinds, hfb, hfh⟩ := good cfg hres
    refine ⟨hbinds, hbinds ▸ hb, ?_, ?_, ?_, ?_⟩
    · intro hnil
      have hlen := hfh.length_eq
      rw [hnil] at hlen
      exact hh (List.length_eq_zero.mp hlen)
    · rw [hbinds]
      refine hfb.imp ?_
      rintro b u ⟨host, port, n, hsplit, -, hatoi, -, -, hu⟩
      refine ⟨host, port, n, hsplit, hatoi, hu, ?_⟩
      intro hhost
      rw [hu, hhost]
      exact ParseIP_nil parseAddr
    · exact hfh.imp (fun y x hyx => ⟨hyx.1, hyx.2.1, hyx.2.2.1⟩)
    · intro x hx
      obtain ⟨y, -, -, hmac, -, hrun, hnone, hsome⟩ := forall₂_right hfh x hx
      refine ⟨hrun, ?_, ?_⟩
      · constructor
        · intro hpn
          by_contra hne
          obtain ⟨m, -, hm⟩ := hsome (hmac ▸ hne)
          rw [hpn] at hm
          cases hm
        · intro he
          exact hnone (hmac ▸ he)
      · intro hne
        obtain ⟨m, hm, hpm⟩ := hsome (hmac ▸ hne)
        rw [hpm, hmac, hm]

/-- Witness of C8: a document without binds is refused, and the document of the test
`everything correct` is accepted with the values that test expects. -/
theorem C8_config_validation_witness :
    (∃ e, ReadConfigFromReader testParseAddr (some { Binds := [], Hosts := testDocument.Hosts })
      = Except.error e) ∧
    ReadConfigFromReader testParseAddr (some testDocument) = Except.ok testConfig ∧
    (∀ x ∈ testConfig.Hosts, x.Run ≠ [] ∧ (x.parsedMac = none ↔ x.Mac = []) ∧
        (x.Mac ≠ [] → x.parsedMac = ParseMAC x.Mac)) :=
  ⟨(C8_config_validation testParseAddr { Binds := [], Hosts := testDocument.Hosts }).1
      (Or.inl rfl),
   rfl,
   ((C8_config_validation testParseAddr testDocument).2 testConfig rfl).2.2.2.2.2⟩

/-- C7, on the code: the bind `:-1` passes the port check `nport == 0 || nport >= 65536`.
`strconv.Atoi` reads `-1`, which is neither `0` nor at least `65536`, so the configuration is
returned with the parsed bind port `-1`, outside `1..65535`. -/
theorem C7_negative_port_accepted (parseAddr : GoString → Option (List Byte)) :
    SplitHostPort ":-1".toList = some ([], "-1".toList) ∧
    Atoi "-1".toList = some (-1) ∧
    ReadConfigFromReader parseAddr
        (some { Binds := [":-1".toList]
                Hosts := [{ Name := "joe".toList, Mac := [], Run := ["/bin/false".toList] }] }) =
      Except.ok
        { Binds := [":-1".toList]
          Hosts := [{ Name := "joe".toList, Mac := [], Run := ["/bin/false".toList],
                      parsedMac := none }]
          parsedBinds := [{ IP := none, Port := -1, Zone := [] }] } := by
  refine ⟨by decide, by decide, ?_⟩
  have hsplit : SplitHostPort [':', '-', '1'] = some ([], ['-', '1']) := by decide
  have hatoi : Atoi ['-', '1'] = some (-1) := by decide
  simp [ReadConfigFromReader, ReadConfigFromReader.binds, ReadConfigFromReader.hosts, hsplit,
    hatoi, ParseIP_nil]

/-! ### End to end: from the validated configuration to the child environment -/

/-- The path stored by `exec.CommandContext`: the name, or what `exec.LookPath` finds for a
name that is its own `filepath.Base`. -/
theorem CommandContext_eq (lookPath : GoString → GoString) (name : GoString) :
    CommandContext lookPath name =
      { Path := if filepathBase name = name ∧ lookPath name ≠ [] then lookPath name else name,
        Args := [name], Dir := [], Env := none } := by
  by_cases h₁ : filepathBase name = name <;> by_cases h₂ : lookPath name = [] <;>
    simp [CommandContext, h₁, h₂]

/-- The command that `runCommand` builds for a host with a non-empty run list. -/
theorem runCommand_eq (lookPath : GoString → GoString) (s : Server) (x : Host) (mac : GoString)
    (hrun : x.Run ≠ []) :
    runCommand lookPath s x mac =
      [Effect.cmdStarted
        { Path := if filepathBase (x.Run.headD []) = x.Run.headD [] ∧
              lookPath (x.Run.headD []) ≠ [] then lookPath (x.Run.headD []) else x.Run.headD [],
          Args := x.Run, Dir := s.workingDirectory,
          Env := some ["MAC=".toList ++ mac,
            "HOST_MAC=".toList ++ HardwareAddr.String (x.parsedMac.getD []),
            "HOST_NAME=".toList ++ x.Name] },
       Effect.cmdReturned
        { Path := if filepathBase (x.Run.headD []) = x.Run.headD [] ∧
              lookPath (x.Run.headD []) ≠ [] then lookPath (x.Run.headD []) else x.Run.headD [],
          Args := x.Run, Dir := s.workingDirectory,
          Env := some ["MAC=".toList ++ mac,
            "HOST_MAC=".toList ++ HardwareAddr.String (x.parsedMac.getD []),
            "HOST_NAME=".toList ++ x.Name] }] := by
  cases hr : x.Run with
  | nil => exact absurd hr hrun
  | cons name args =>
    cases args with
    | nil => simp [runCommand, hr, goAppend, CommandContext_eq]
    | cons arg args => simp [runCommand, hr, goAppend, CommandContext_eq]

/-- C5: let `ReadConfigFromReader` accept a document whose only host has name `n`, run list
`run` and mac text `mac`, where `mac` is either the colon-separated lowercase hex text of the
6-byte address `a` or empty (wildcard), and let the server use the returned configuration.
Then the run list is not empty and handling a well-formed magic packet for `a` (any 6-byte
header, 16 copies of `a`, in any state of the buffer) runs exactly that host's command, once:
arguments `run`, the server's working directory, the path that `exec.CommandContext` stores
for `run[0]` (the `exec.LookPath` result for a name without directory part, else the name),
and the environment entries `MAC=text(a)`, `HOST_MAC=mac` (the text of `a`, or the empty
string for the wildcard) and `HOST_NAME=n`. -/
theorem C5_command_environment (parseAddr : GoString → Option (List Byte)) (doc : YamlConfig)
    (lookPath : GoString → GoString) (s : Server) (n mac : GoString) (run : List GoString)
    (a hdr buf : List Byte)
    (hread : ReadConfigFromReader parseAddr (some doc) = Except.ok s.Config)
    (hhosts : doc.Hosts = [{ Name := n, Mac := mac, Run := run }])
    (hmac : mac = HardwareAddr.String a ∨ mac = [])
    (ha : a.length = 6) (hh : hdr.length = 6) (hbuf : buf.length = bufSize) :
    run ≠ [] ∧
    Serve.handle lookPath s (readFromUDP buf (hdr ++ (List.replicate 16 a).flatten)) =
      [Effect.cmdStarted
        { Path := if filepathBase (run.headD []) = run.headD [] ∧ lookPath (run.headD []) ≠ []
            then lookPath (run.headD []) else run.headD [],
          Args := run, Dir := s.workingDirectory,
          Env := some ["MAC=".toList ++ HardwareAddr.String a, "HOST_MAC=".toList ++ mac,
            "HOST_NAME=".toList ++ n] },
       Effect.cmdReturned
        { Path := if filepathBase (run.headD []) = run.headD [] ∧ lookPath (run.headD []) ≠ []
            then lookPath (run.headD []) else run.headD [],
          Args := run, Dir := s.workingDirectory,
          Env := some ["MAC=".toList ++ HardwareAddr.String a, "HOST_MAC=".toList ++ mac,
            "HOST_NAME=".toList ++ n] }] := by
  obtain ⟨-, -, -, -, hhs⟩ := ReadConfigFromReader.ok_inv parseAddr doc s.Config hread
  have hf := ReadConfigFromReader.hosts_ok _ _ hhs
  rw [hhosts, List.forall₂_cons_left_iff] at hf
  obtain ⟨x, rest, ⟨hname, hxmac, hxrun, hne, hnone, hsome⟩, hrest, hcfg⟩ := hf
  rw [List.forall₂_nil_left_iff] at hrest
  subst hrest
  simp only at hname hxmac hxrun hnone hsome
  have hmatch : hostMatches a x = true ∧ HardwareAddr.String (x.parsedMac.getD []) = mac := by
    rcases hmac with hm | hm
    · have hmne : mac ≠ [] := hm ▸ HardwareAddr.String_ne_nil a ha
      obtain ⟨m, hpm, hxm⟩ := hsome hmne
      rw [hm, ParseMAC_String a ha] at hpm
      cases hpm
      simp [hostMatches, hxm, bytesEqual, hm]
    · have hx := hnone hm
      simp [hostMatches, hx, hm, HardwareAddr.String]
  refine ⟨hxrun ▸ hne, ?_⟩
  rw [Serve.handle_frame lookPath s buf hdr a hbuf hh ha]
  simp only [runCommands, hcfg, runCommands.calls, hmatch.1, ↓reduceIte, List.flatMap_cons,
    List.flatMap_nil, List.append_nil]
  rw [runCommand_eq lookPath s x _ hne, hmatch.2, hname, hxrun]

/-- Witness of C5: the configuration of `TestServer`, case `specific mac`, with the command
`env` that `exec.LookPath` finds as `/usr/bin/env`, and the packet that `sendMagicPaket` builds
for `00:01:02:03:04:05`, received first. -/
theorem C5_command_environment_witness :
    ReadConfigFromReader testParseAddr (some joeDocument) = Except.ok (serverFor [joeHost]).Config ∧
    Serve.handle testLookPath (serverFor [joeHost])
        (readFromUDP (List.replicate bufSize 0)
          (List.replicate 6 255 ++ (List.replicate 16 [0, 1, 2, 3, 4, 5]).flatten)) =
      [Effect.cmdStarted
        { Path := "/usr/bin/env".toList, Args := ["env".toList],
          Dir := (serverFor [joeHost]).workingDirectory,
          Env := some ["MAC=".toList ++ HardwareAddr.String [0, 1, 2, 3, 4, 5],
            "HOST_MAC=".toList ++ "00:01:02:03:04:05".toList, "HOST_NAME=".toList ++ "joe".toList] },
       Effect.cmdReturned
        { Path := "/usr/bin/env".toList, Args := ["env".toList],
          Dir := (serverFor [joeHost]).workingDirectory,
          Env := some ["MAC=".toList ++ HardwareAddr.String [0, 1, 2, 3, 4, 5],
            "HOST_MAC=".toList ++ "00:01:02:03:04:05".toList,
            "HOST_NAME=".toList ++ "joe".toList] }] :=
  ⟨rfl,
   (C5_command_environment testParseAddr joeDocument testLookPath (serverFor [joeHost])
      "joe".toList "00:01:02:03:04:05".toList ["env".toList] [0, 1, 2, 3, 4, 5]
      (List.replicate 6 255) (List.replicate bufSize 0) rfl rfl (Or.inl rfl) rfl rfl rfl).2⟩

/-! ### The environment of the child process -/

set_option maxRecDepth 100000 in
/-- C6, on the code: `runCommand` appends the three entries to the nil `cmd.Env`, so `Env` is
not nil and the child process gets exactly `MAC`, `HOST_MAC` and `HOST_NAME`: with the parent
environment `PATH=/usr/bin`, the child of the wildcard host has no `PATH`. -/
theorem C6_child_environment_not_inherited (lookPath : GoString → GoString) :
    runCommand lookPath (serverFor [wildcardHost]) wildcardHost "00:01:02:03:04:05".toList =
      [Effect.cmdStarted (wildcardCmd "00:01:02:03:04:05".toList),
       Effect.cmdReturned (wildcardCmd "00:01:02:03:04:05".toList)] ∧
    Cmd.Environ ["PATH=/usr/bin".toList] (wildcardCmd "00:01:02:03:04:05".toList) =
      ["MAC=00:01:02:03:04:05".toList, "HOST_MAC=".toList, "HOST_NAME=wildcard".toList] ∧
    "PATH=/usr/bin".toList ∉
      Cmd.Environ ["PATH=/usr/bin".toList] (wildcardCmd "00:01:02:03:04:05".toList) := by
  refine ⟨rfl, by decide, by decide⟩

/-! ### `Close` -/

/-- C9, on the code: `Close` does not look at its context, and when `Serve` is not in its loop
(it returned the bind error, or was never called) the send on `stopCh` finds no receiver:
`Close` never returns, whatever the deadline, and the socket is not closed. -/
theorem C9_close_ignores_deadline :
    (∀ (ctx ctx' : Context) (st : ListenerState), Close ctx st = Close ctx' st) ∧
    (Serve testLookPath (serverFor [wildcardHost]) false []).status = ServeStatus.returnedListenError ∧
    Close { deadline := some 15 }
      (ListenerState.serve (Serve testLookPath (serverFor [wildcardHost]) false []).status) = none ∧
    Close { deadline := some 15 } ListenerState.created = none := by
  refine ⟨fun _ _ st => ?_, rfl, rfl, rfl⟩
  cases st <;> rfl

/-! ### Dispatch is sequential -/

/-- An effect other than an entry into `cmd.Run()` does not change whether a trace is paired. -/
theorem paired_cons (e : Effect) (t : List Effect) (he : ∀ c, e ≠ Effect.cmdStarted c) :
    paired (e :: t) = paired t := by
  cases e with
  | cmdStarted c => exact absurd rfl (he c)
  | readIssued => rfl
  | logReadError => rfl
  | logDecodeError => rfl
  | logMalformed => rfl
  | cmdReturned c => rfl

/-- In a paired trace, an entry into `cmd.Run()` is directly followed by its return. -/
theorem paired_next (t : List Effect) (h : paired t = true) (k : Nat) (c : Cmd)
    (hk : t[k]? = some (Effect.cmdStarted c)) : t[k + 1]? = some (Effect.cmdReturned c) := by
  induction t using paired.induct generalizing k with
  | case1 => simp at hk
  | case2 c₁ c₂ t ih =>
    simp only [paired, Bool.and_eq_true, decide_eq_true_eq] at h
    obtain ⟨hc, ht⟩ := h
    subst hc
    match k with
    | 0 =>
      simp only [List.getElem?_cons_zero, Option.some.injEq, Effect.cmdStarted.injEq] at hk
      subst hk
      simp
    | 1 => simp at hk
    | k + 2 =>
      simp only [List.getElem?_cons_succ] at hk ⊢
      exact ih ht k hk
  | case3 c₁ tail hno =>
    exfalso
    cases tail with
    | nil => simp [paired] at h
    | cons e t =>
      cases e with
      | cmdReturned c' => exact hno c' t rfl
      | readIssued => simp [paired] at h
      | logReadError => simp [paired] at h
      | logDecodeError => simp [paired] at h
      | logMalformed => simp [paired] at h
      | cmdStarted c' => simp [paired] at h
  | case4 head t _ hno ih =>
    have hne : ∀ c, head ≠ Effect.cmdStarted c := fun c hc => hno c hc
    rw [paired_cons head t hne] at h
    match k with
    | 0 =>
      simp only [List.getElem?_cons_zero, Option.some.injEq] at hk
      exact absurd hk (hne c)
    | k + 1 =>
      simp only [List.getElem?_cons_succ] at hk ⊢
      exact ih h k hk

/-- Paired traces can be put one after the other. -/
theorem paired_append (t₁ t₂ : List Effect) (h₁ : paired t₁ = true) (h₂ : paired t₂ = true) :
    paired (t₁ ++ t₂) = true := by
  induction t₁ using paired.induct with
  | case1 => exact h₂
  | case2 c₁ c₂ t ih =>
    simp only [paired, Bool.and_eq_true, decide_eq_true_eq] at h₁
    simp only [List.cons_append, paired, Bool.and_eq_true, decide_eq_true_eq]
    exact ⟨h₁.1, ih h₁.2⟩
  | case3 c₁ tail hno =>
    exfalso
    cases tail with
    | nil => simp [paired] at h₁
    | cons e t =>
      cases e with
      | cmdReturned c' => exact hno c' t rfl
      | readIssued => simp [paired] at h₁
      | logReadError => simp [paired] at h₁
      | logDecodeError => simp [paired] at h₁
      | logMalformed => simp [paired] at h₁
      | cmdStarted c' => simp [paired] at h₁
  | case4 head t _ hno ih =>
    have hne : ∀ c, head ≠ Effect.cmdStarted c := fun c hc => hno c hc
    rw [paired_cons head t hne] at h₁
    rw [List.cons_append, paired_cons head _ hne]
    exact ih h₁

/-- The trace of `runCommand` is paired. -/
theorem paired_runCommand (lookPath : GoString → GoString) (s : Server) (x : Host) (mac : GoString) :
    paired (runCommand lookPath s x mac) = true := by
  cases hr : x.Run with
  | nil => simp [runCommand, hr, paired]
  | cons name args => simp [runCommand, hr, paired]

/-- The trace of `runCommands` is paired. -/
theorem paired_runCommands (lookPath : GoString → GoString) (s : Server) (mac : HardwareAddr) :
    paired (runCommands lookPath s mac) = true := by
  rw [runCommands]
  generalize runCommands.calls mac 0 s.Config.Hosts = calls
  induction calls with
  | nil => rfl
  | cons c cs ih =>
    rw [List.flatMap_cons]
    exact paired_append _ _ (paired_runCommand lookPath s _ _) ih

/-- The trace of one handled datagram is paired. -/
theorem paired_handle (lookPath : GoString → GoString) (s : Server) (buf : List Byte) : paired (Serve.handle lookPath s buf) = true := by
  rw [Serve.handle]
  split
  · rfl
  · rfl
  · exact paired_runCommands lookPath s _

/-- The trace of the loop of `Serve` is paired. -/
theorem paired_loop (lookPath : GoString → GoString) (s : Server) (events : List SocketEvent) (buf : List Byte) :
    paired (Serve.loop lookPath s buf events).trace = true := by
  induction events generalizing buf with
  | nil => rfl
  | cons ev rest ih =>
    cases ev with
    | datagram data =>
      rw [Serve.loop_datagram]
      show paired (Effect.readIssued :: _) = true
      rw [paired_cons _ _ (fun c hc => by cases hc)]
      exact paired_append _ _ (paired_handle lookPath s _) (ih _)
    | readError =>
      simp only [Serve.loop]
      rw [paired_cons _ _ (fun c hc => by cases hc), paired_cons _ _ (fun c hc => by cases hc)]
      exact ih buf
    | stop => rfl

set_option maxRecDepth 100000 in
/-- C10, as stated, fails: two wildcard hosts, the first one with a command that outlives the
timeout, and one packet for `00:01:02:03:04:05`. In the trace of `Serve` the second host's
command is started after `cmd.Run()` of the first has returned, and the next read is issued
after both have returned. -/
theorem C10_dispatch_waits_counterexample :
    (Serve testLookPath (serverFor [slowHost, wildcardHost]) true
        [SocketEvent.datagram (sendMagicPaket [0, 1, 2, 3, 4, 5])]).trace =
      [Effect.readIssued,
       Effect.cmdStarted (slowCmd "00:01:02:03:04:05".toList),
       Effect.cmdReturned (slowCmd "00:01:02:03:04:05".toList),
       Effect.cmdStarted (wildcardCmd "00:01:02:03:04:05".toList),
       Effect.cmdReturned (wildcardCmd "00:01:02:03:04:05".toList),
       Effect.readIssued] ∧
    precedes (Effect.cmdReturned (slowCmd "00:01:02:03:04:05".toList))
      (Effect.cmdStarted (wildcardCmd "00:01:02:03:04:05".toList))
      (Serve testLookPath (serverFor [slowHost, wildcardHost]) true
        [SocketEvent.datagram (sendMagicPaket [0, 1, 2, 3, 4, 5])]).trace = true ∧
    precedes (Effect.cmdStarted (wildcardCmd "00:01:02:03:04:05".toList))
      (Effect.cmdReturned (slowCmd "00:01:02:03:04:05".toList))
      (Serve testLookPath (serverFor [slowHost, wildcardHost]) true
        [SocketEvent.datagram (sendMagicPaket [0, 1, 2, 3, 4, 5])]).trace = false ∧
    precedes (Effect.cmdReturned (wildcardCmd "00:01:02:03:04:05".toList)) Effect.readIssued
      (Serve testLookPath (serverFor [slowHost, wildcardHost]) true
        [SocketEvent.datagram (sendMagicPaket [0, 1, 2, 3, 4, 5])]).trace = true := by
  refine ⟨by decide, by decide, by decide, by decide⟩

/-- The effects of `runCommands` are those of `runCommand` on the matching hosts, in
configured order. -/
theorem runCommands_eq (lookPath : GoString → GoString) (s : Server) (mac : HardwareAddr) :
    runCommands lookPath s mac =
      (s.Config.Hosts.filter
          (fun h => decide (h.parsedMac = none ∨ h.parsedMac = some mac))).flatMap
        (fun h => runCommand lookPath s h (HardwareAddr.String mac)) := by
  rw [runCommands, runCommands.calls_eq]
  generalize s.Config.Hosts = hosts
  generalize 0 = i
  induction hosts generalizing i with
  | nil => rfl
  | cons h hs ih =>
    simp only [List.enumFrom, List.filter_cons]
    split
    · simp only [List.map_cons, List.flatMap_cons, ih (i + 1)]
    · exact ih (i + 1)

/-- The two effects of `runCommand`, or none for an empty run list. -/
theorem runCommand_cases (lookPath : GoString → GoString) (s : Server) (h : Host)
    (a : HardwareAddr) :
    runCommand lookPath s h (HardwareAddr.String a) =
      if h.Run = [] then []
      else
        [Effect.cmdStarted
          { Path := if filepathBase (h.Run.headD []) = h.Run.headD [] ∧
                    lookPath (h.Run.headD []) ≠ [] then lookPath (h.Run.headD [])
                  else h.Run.headD [],
                Args := h.Run, Dir := s.workingDirectory,
                Env := some ["MAC=".toList ++ HardwareAddr.String a,
                  "HOST_MAC=".toList ++ HardwareAddr.String (h.parsedMac.getD []),
                  "HOST_NAME=".toList ++ h.Name] },
         Effect.cmdReturned
          { Path := if filepathBase (h.Run.headD []) = h.Run.headD [] ∧
                    lookPath (h.Run.headD []) ≠ [] then lookPath (h.Run.headD [])
                  else h.Run.headD [],
                Args := h.Run, Dir := s.workingDirectory,
                Env := some ["MAC=".toList ++ HardwareAddr.String a,
                  "HOST_MAC=".toList ++ HardwareAddr.String (h.parsedMac.getD []),
                  "HOST_NAME=".toList ++ h.Name] }] := by
  by_cases hr : h.Run = []
  · simp [runCommand, hr]
  · rw [if_neg hr, runCommand_eq lookPath s h _ hr]

/-- C10, amended: when `Serve` handles a well-formed packet for `a`, the trace after the read
is, for the hosts whose parsed MAC is absent or equal to `a`, taken in configured order and
each exactly once, the entry into `cmd.Run()` of that host's command directly followed by the
return of the same `cmd.Run()` (nothing for a host with an empty run list), and only then the
next read is issued. In every run of `Serve`, whatever the events, an entry into `cmd.Run()`
is directly followed by its return: no other host's command is started and no datagram read is
issued while a command runs. -/
theorem C10_dispatch_sequential (lookPath : GoString → GoString) (s : Server)
    (buf hdr a : List Byte) (rest : List SocketEvent)
    (hbuf : buf.length = bufSize) (hh : hdr.length = 6) (ha : a.length = 6) :
    (Serve.loop lookPath s buf
        (SocketEvent.datagram (hdr ++ (List.replicate 16 a).flatten) :: rest)).trace =
      Effect.readIssued ::
        ((s.Config.Hosts.filter
            (fun h => decide (h.parsedMac = none ∨ h.parsedMac = some a))).flatMap
          (fun h =>
            if h.Run = [] then []
            else
              [Effect.cmdStarted
              { Path := if filepathBase (h.Run.headD []) = h.Run.headD [] ∧
                    lookPath (h.Run.headD []) ≠ [] then lookPath (h.Run.headD [])
                  else h.Run.headD [],
                Args := h.Run, Dir := s.workingDirectory,
                Env := some ["MAC=".toList ++ HardwareAddr.String a,
                  "HOST_MAC=".toList ++ HardwareAddr.String (h.parsedMac.getD []),
                  "HOST_NAME=".toList ++ h.Name] },
               Effect.cmdReturned
              { Path := if filepathBase (h.Run.headD []) = h.Run.headD [] ∧
                    lookPath (h.Run.headD []) ≠ [] then lookPath (h.Run.headD [])
                  else h.Run.headD [],
                Args := h.Run, Dir := s.workingDirectory,
                Env := some ["MAC=".toList ++ HardwareAddr.String a,
                  "HOST_MAC=".toList ++ HardwareAddr.String (h.parsedMac.getD []),
                  "HOST_NAME=".toList ++ h.Name] }]) ++
          (Serve.loop lookPath s (hdr ++ (List.replicate 16 a).flatten) rest).trace) ∧
    (∃ t, (Serve.loop lookPath s (hdr ++ (List.replicate 16 a).flatten) rest).trace =
      Effect.readIssued :: t) ∧
    (∀ (listenOk : Bool) (events : List SocketEvent) (k : Nat) (c : Cmd),
      (Serve lookPath s listenOk events).trace[k]? = some (Effect.cmdStarted c) →
      (Serve lookPath s listenOk events).trace[k + 1]? = some (Effect.cmdReturned c)) := by
  refine ⟨?_, ?_, ?_⟩
  · rw [Serve.loop_datagram,
      readFromUDP_full buf _ ((frame_length hdr a hh ha).trans hbuf.symm),
      Serve.handle_accepted lookPath s _ a (Serve.decode_identical hdr a hh ha),
      runCommands_eq]
    simp only [runCommand_cases]
  · cases rest with
    | nil => exact ⟨[], rfl⟩
    | cons ev rest =>
      cases ev with
      | datagram d => exact ⟨_, rfl⟩
      | readError => exact ⟨_, rfl⟩
      | stop => exact ⟨[], rfl⟩
  · intro listenOk events k c hk
    refine paired_next _ ?_ k c hk
    rw [Serve]
    split
    · exact paired_loop lookPath s events _
    · rfl

set_option maxRecDepth 100000 in
/-- Witness of the amended C10: two wildcard hosts and one packet for `00:01:02:03:04:05`,
received first. The slow command is started and returns, then the second command is started
and returns, then the next read is issued; position 1 of the trace is the start of the slow
command and position 2 its return. -/
theorem C10_dispatch_sequential_witness :
    (Serve.loop testLookPath (serverFor [slowHost, wildcardHost]) (List.replicate bufSize 0)
        (SocketEvent.datagram
          (List.replicate 6 255 ++ (List.replicate 16 [0, 1, 2, 3, 4, 5]).flatten) :: [])).trace =
      [Effect.readIssued,
       Effect.cmdStarted (slowCmd "00:01:02:03:04:05".toList),
       Effect.cmdReturned (slowCmd "00:01:02:03:04:05".toList),
       Effect.cmdStarted (wildcardCmd "00:01:02:03:04:05".toList),
       Effect.cmdReturned (wildcardCmd "00:01:02:03:04:05".toList),
       Effect.readIssued] ∧
    (Serve testLookPath (serverFor [slowHost, wildcardHost]) true
        [SocketEvent.datagram (sendMagicPaket [0, 1, 2, 3, 4, 5])]).trace[1 + 1]? =
      some (Effect.cmdReturned (slowCmd "00:01:02:03:04:05".toList)) :=
  ⟨(C10_dispatch_sequential testLookPath (serverFor [slowHost, wildcardHost])
      (List.replicate bufSize 0) (List.replicate 6 255) [0, 1, 2, 3, 4, 5] []
      (by decide) (by decide) (by decide)).1,
   (C10_dispatch_sequential testLookPath (serverFor [slowHost, wildcardHost])
      (List.replicate bufSize 0) (List.replicate 6 255) [0, 1, 2, 3, 4, 5] []
      (by decide) (by decide) (by decide)).2.2 true
      [SocketEvent.datagram (sendMagicPaket [0, 1, 2, 3, 4, 5])] 1
      (slowCmd "00:01:02:03:04:05".toList) (by decide)⟩

end Cwolsrv
